import Mathlib

/-!
Verification of the MTG card-analyser transformation engine
(`src/transform/cleaner.py`) against its natural-language specification.

The Python module is shallowly embedded: strings are `String`/`List Char`,
pandas DataFrames are lists of records, and every function is translated
with structural recursion so all definitions evaluate by kernel reduction.
Python-specific string primitives (`str.strip(chars)`, `str.split()`,
`str.split(sep)`, `str.replace`, `str.upper`, `str.isdigit`) are modelled
for the ASCII inputs this pipeline consumes.
-/

namespace MtgCleaner

/-! ## Python string primitives -/

/-- The lowercase-to-uppercase table of the 26 ASCII letters. -/
def LOWER_TO_UPPER : List (Char × Char) :=
  [('a', 'A'), ('b', 'B'), ('c', 'C'), ('d', 'D'), ('e', 'E'), ('f', 'F'),
   ('g', 'G'), ('h', 'H'), ('i', 'I'), ('j', 'J'), ('k', 'K'), ('l', 'L'),
   ('m', 'M'), ('n', 'N'), ('o', 'O'), ('p', 'P'), ('q', 'Q'), ('r', 'R'),
   ('s', 'S'), ('t', 'T'), ('u', 'U'), ('v', 'V'), ('w', 'W'), ('x', 'X'),
   ('y', 'Y'), ('z', 'Z')]

/-- Python `str.upper()` for ASCII characters: the 26 lowercase letters map to
their uppercase forms, every other character is unchanged. -/
def upperChar (c : Char) : Char :=
  ((LOWER_TO_UPPER.find? (fun p => p.1 == c)).map Prod.snd).getD c

/-- Python `str.isdigit()` character class, ASCII digits. -/
def isDigitChar (c : Char) : Bool :=
  c = '0' || c = '1' || c = '2' || c = '3' || c = '4' ||
  c = '5' || c = '6' || c = '7' || c = '8' || c = '9'

/-- Value of one ASCII digit character. -/
def digitVal (c : Char) : Nat :=
  if c = '1' then 1 else if c = '2' then 2 else if c = '3' then 3
  else if c = '4' then 4 else if c = '5' then 5 else if c = '6' then 6
  else if c = '7' then 7 else if c = '8' then 8 else if c = '9' then 9 else 0

/-- Python `int(s)` on an all-digit string. -/
def digitsToNat (l : List Char) : Nat :=
  l.foldl (fun a c => a * 10 + digitVal c) 0

/-- Python `s.isdigit()`: non-empty and every character a digit. -/
def pyIsDigit (l : List Char) : Bool :=
  !l.isEmpty && l.all isDigitChar

/-- Python `str.strip(chars)`: remove any run of characters drawn from the
set `chars` from both ends of the string (it is a character-set strip, not
a substring strip). -/
def pyStripChars (chars : List Char) (l : List Char) : List Char :=
  ((l.dropWhile (fun c => chars.contains c)).reverse.dropWhile
    (fun c => chars.contains c)).reverse

/-- Whitespace characters recognised by Python `str.strip()`/`str.split()`
on the ASCII inputs this pipeline consumes. -/
def WS : List Char := [' ', '\t', '\n', '\r']

/-- Python `str.strip()` (no argument): trim surrounding whitespace. -/
def pyTrimList (l : List Char) : List Char := pyStripChars WS l

/-- `str.strip()` lifted to `String`. -/
def pyTrim (s : String) : String := String.mk (pyTrimList s.toList)

/-- Worker for Python `str.split()` (split on whitespace runs, dropping
empty fields); `acc` is the current token, reversed. -/
def wsSplitAux : List Char → List Char → List (List Char)
  | [], acc => if acc.isEmpty then [] else [acc.reverse]
  | c :: rest, acc =>
    if WS.contains c then
      if acc.isEmpty then wsSplitAux rest []
      else acc.reverse :: wsSplitAux rest []
    else wsSplitAux rest (c :: acc)

/-- Python `str.split()` with no separator argument. -/
def pySplitWhitespace (l : List Char) : List (List Char) := wsSplitAux l []

/-! ## `parse_mana_cost` (cleaner.py lines 96-155) -/

/-- The six colour letters of `COLOURS = ["W", "U", "B", "R", "G", "C"]`. -/
def COLOURS : List (List Char) := [['W'], ['U'], ['B'], ['R'], ['G'], ['C']]

/-- The character set of the marker `"sym_"` as Python `str.strip` sees it. -/
def MANA_MARKER : List Char := ['s', 'y', 'm', '_']

/-- The raw two-generic-hybrid marker `"sym_2/"` used by `part.startswith`. -/
def SYM2SLASH : List Char := ['s', 'y', 'm', '_', '2', '/']

/-- Result record of `parse_mana_cost`: CMC, hybrid flag, generic amount,
X flag and the six colour flags. -/
@[ext]
structure ManaData where
  CMC : Nat
  Is_Hybrid : Bool
  Generic_Mana : Nat
  Is_X : Bool
  Is_W : Bool
  Is_U : Bool
  Is_B : Bool
  Is_R : Bool
  Is_G : Bool
  Is_C : Bool
  deriving DecidableEq, Repr

/-- The initial `row_data` dictionary: zeroes and false flags. -/
def initManaData : ManaData :=
  ⟨0, false, 0, false, false, false, false, false, false, false⟩

/-- Python `s.split("/")` on the normalised symbol. -/
def splitSlash : List Char → List (List Char)
  | [] => [[]]
  | '/' :: rest => [] :: splitSlash rest
  | c :: rest =>
    match splitSlash rest with
    | [] => [[c]]
    | p :: ps => (c :: p) :: ps

/-- Loop body `if symbol in COLOURS: row_data[f"Is_{symbol}"] = True`,
spelled out for the six members of `COLOURS`. -/
def setColourTrue (rd : ManaData) (symbol : List Char) : ManaData :=
  if symbol = ['W'] then { rd with Is_W := true }
  else if symbol = ['U'] then { rd with Is_U := true }
  else if symbol = ['B'] then { rd with Is_B := true }
  else if symbol = ['R'] then { rd with Is_R := true }
  else if symbol = ['G'] then { rd with Is_G := true }
  else if symbol = ['C'] then { rd with Is_C := true }
  else rd

/-- One iteration of the `for part in cost_parts` loop of `parse_mana_cost`. -/
def parseManaToken (rd : ManaData) (part : List Char) : ManaData :=
  let symbol_value_raw := pyStripChars MANA_MARKER part
  let symbol_value_normalised := symbol_value_raw.map upperChar
  if '/' ∈ symbol_value_normalised then
    let rd1 := { rd with Is_Hybrid := true }
    let rd2 :=
      if SYM2SLASH.isPrefixOf part then { rd1 with CMC := rd1.CMC + 2 }
      else { rd1 with CMC := rd1.CMC + 1 }
    (splitSlash symbol_value_normalised).foldl setColourTrue rd2
  else if symbol_value_normalised ∈ COLOURS then
    setColourTrue { rd with CMC := rd.CMC + 1 } symbol_value_normalised
  else if pyIsDigit symbol_value_raw then
    let generic_value := digitsToNat symbol_value_raw
    { rd with CMC := rd.CMC + generic_value,
              Generic_Mana := rd.Generic_Mana + generic_value }
  else if symbol_value_normalised = ['X'] then
    { rd with Is_X := true }
  else rd

/-- `parse_mana_cost`: split the cost string into parts and fold the
per-token classifier over them. -/
def parse_mana_cost (cost_str : String) : ManaData :=
  (pySplitWhitespace cost_str.toList).foldl parseManaToken initManaData

example : parse_mana_cost "sym_3 sym_W sym_B" =
    { CMC := 5, Is_Hybrid := false, Generic_Mana := 3, Is_X := false,
      Is_W := true, Is_U := false, Is_B := true, Is_R := false,
      Is_G := false, Is_C := false } := by decide

example : parse_mana_cost "sym_2 sym_2/u" =
    { CMC := 4, Is_Hybrid := true, Generic_Mana := 2, Is_X := false,
      Is_W := false, Is_U := true, Is_B := false, Is_R := false,
      Is_G := false, Is_C := false } := by decide

example : parse_mana_cost "sym_x sym_r" =
    { CMC := 1, Is_Hybrid := false, Generic_Mana := 0, Is_X := true,
      Is_W := false, Is_U := false, Is_B := false, Is_R := true,
      Is_G := false, Is_C := false } := by decide

example : parse_mana_cost "" = initManaData := by decide

/-! ## Claim-side (specification) reading of the mana grammar

These definitions transcribe the specification sentences for claim C1:
per-token CMC contributions, the generic sum, and the iff-conditions for
the boolean flags. -/

/-- Spec: a token is hybrid iff it contains a slash. -/
def claimTokenHybrid (part : List Char) : Bool := decide ('/' ∈ part)

/-- Spec: the payload of a token is the marker-stripped, upper-cased text. -/
def claimPayload (part : List Char) : List Char :=
  (pyStripChars MANA_MARKER part).map upperChar

/-- Spec: a hybrid token obeys the two-generic rule iff its raw text begins
with `"sym_2/"`. -/
def claimTwoGeneric (part : List Char) : Bool := SYM2SLASH.isPrefixOf part

/-- Spec: CMC contribution of one token — 2 for a two-generic hybrid,
1 for any other hybrid, 1 for a single colour letter, N for a numeric
symbol of value N, 0 otherwise (X and unrecognized tokens).  The four
categories are mutually exclusive, so the guarded chain is their sum. -/
def claimTokenCMC (part : List Char) : Nat :=
  if claimTokenHybrid part then (if claimTwoGeneric part then 2 else 1)
  else if claimPayload part ∈ COLOURS then 1
  else if pyIsDigit (pyStripChars MANA_MARKER part) then
    digitsToNat (pyStripChars MANA_MARKER part)
  else 0

/-- Spec: Generic_Mana contribution of one token — its value when the
marker-stripped text is numeric, 0 otherwise. -/
def claimTokenGeneric (part : List Char) : Nat :=
  if pyIsDigit (pyStripChars MANA_MARKER part) then
    digitsToNat (pyStripChars MANA_MARKER part)
  else 0

/-- Spec: a token names colour `c` iff some side of a hybrid token, or the
whole payload of a plain token, is exactly that colour letter. -/
def claimNamesColour (c : Char) (part : List Char) : Bool :=
  if claimTokenHybrid part then
    (splitSlash (claimPayload part)).any (fun s => decide (s = [c]))
  else decide (claimPayload part = [c])

/-- Spec: a token is the variable-cost symbol iff its payload is `X`
(case-insensitively). -/
def claimTokenX (part : List Char) : Bool := decide (claimPayload part = ['X'])

/-- The record claim C1 describes: CMC and Generic_Mana as sums over the
tokens, each flag as an existential over the tokens. -/
def claimParse (cost_str : String) : ManaData :=
  let toks := pySplitWhitespace cost_str.toList
  { CMC := (toks.map claimTokenCMC).sum
    Is_Hybrid := toks.any claimTokenHybrid
    Generic_Mana := (toks.map claimTokenGeneric).sum
    Is_X := toks.any claimTokenX
    Is_W := toks.any (claimNamesColour 'W')
    Is_U := toks.any (claimNamesColour 'U')
    Is_B := toks.any (claimNamesColour 'B')
    Is_R := toks.any (claimNamesColour 'R')
    Is_G := toks.any (claimNamesColour 'G')
    Is_C := toks.any (claimNamesColour 'C') }

/-! ## Character-class lemmas -/

theorem upperChar_of_digit {c : Char} (h : isDigitChar c = true) :
    upperChar c = c := by
  simp only [isDigitChar, Bool.or_eq_true, decide_eq_true_eq] at h
  rcases h with (((((((((h | h) | h) | h) | h) | h) | h) | h) | h) | h) <;>
    subst h <;> rfl

theorem upperChar_eq_slash {c : Char} (h : upperChar c = '/') : c = '/' := by
  unfold upperChar at h
  cases hf : LOWER_TO_UPPER.find? (fun p => p.1 == c) with
  | none => simpa [hf] using h
  | some p =>
    simp only [hf, Option.map_some', Option.getD_some] at h
    have hp := List.mem_of_find?_eq_some hf
    fin_cases hp <;> exact absurd h (by decide)

theorem mem_map_upperChar_slash {l : List Char} :
    '/' ∈ l.map upperChar ↔ '/' ∈ l := by
  constructor
  · intro h
    rcases List.mem_map.mp h with ⟨c, hc, hu⟩
    exact (upperChar_eq_slash hu) ▸ hc
  · intro h
    exact List.mem_map.mpr ⟨'/', h, by decide⟩

theorem mem_dropWhile_of {p : Char → Bool} {c : Char} {l : List Char}
    (hc : p c = false) (h : c ∈ l) : c ∈ l.dropWhile p := by
  induction l with
  | nil => cases h
  | cons a l ih =>
    rw [List.dropWhile_cons]
    by_cases ha : p a = true
    · simp only [ha, if_true]
      rcases List.mem_cons.mp h with rfl | h
      · rw [hc] at ha; cases ha
      · exact ih h
    · simp only [Bool.not_eq_true] at ha
      simp only [ha, Bool.false_eq_true, if_false]
      exact h

theorem mem_of_mem_dropWhile {p : Char → Bool} {c : Char} {l : List Char}
    (h : c ∈ l.dropWhile p) : c ∈ l := by
  induction l with
  | nil => cases h
  | cons a l ih =>
    rw [List.dropWhile_cons] at h
    by_cases ha : p a = true
    · simp only [ha, if_true] at h
      exact List.mem_cons_of_mem a (ih h)
    · simp only [Bool.not_eq_true] at ha
      simp only [ha, Bool.false_eq_true, if_false] at h
      exact h

theorem mem_pyStripChars_iff {chars l : List Char} {c : Char}
    (hc : chars.contains c = false) :
    c ∈ pyStripChars chars l ↔ c ∈ l := by
  unfold pyStripChars
  constructor
  · intro h
    rw [List.mem_reverse] at h
    have h1 := mem_of_mem_dropWhile h
    rw [List.mem_reverse] at h1
    exact mem_of_mem_dropWhile h1
  · intro h
    rw [List.mem_reverse]
    apply mem_dropWhile_of hc
    rw [List.mem_reverse]
    exact mem_dropWhile_of hc h

theorem slash_payload_iff {part : List Char} :
    '/' ∈ claimPayload part ↔ '/' ∈ part := by
  unfold claimPayload
  rw [mem_map_upperChar_slash]
  exact mem_pyStripChars_iff (by decide)

theorem pyIsDigit_not_slash {l : List Char} (h : pyIsDigit l = true) :
    '/' ∉ l := by
  intro hm
  simp only [pyIsDigit, Bool.and_eq_true, List.all_eq_true] at h
  have := h.2 '/' hm
  simp [isDigitChar] at this

theorem pyIsDigit_upper_fixed {l : List Char} (h : pyIsDigit l = true) :
    l.map upperChar = l := by
  simp only [pyIsDigit, Bool.and_eq_true, List.all_eq_true] at h
  have : ∀ c ∈ l, upperChar c = id c := fun c hc => upperChar_of_digit (h.2 c hc)
  rw [List.map_congr_left this, List.map_id]

theorem colours_not_digit {p : List Char} (h : p ∈ COLOURS) :
    pyIsDigit p = false := by
  fin_cases h <;> rfl

theorem colours_not_slash {p : List Char} (h : p ∈ COLOURS) : '/' ∉ p := by
  fin_cases h <;> decide

theorem colours_ne_X {p : List Char} (h : p ∈ COLOURS) : p ≠ ['X'] := by
  fin_cases h <;> decide

/-! ## Field behaviour of `setColourTrue` and its fold -/

theorem setColourTrue_CMC (rd : ManaData) (s : List Char) :
    (setColourTrue rd s).CMC = rd.CMC := by
  unfold setColourTrue; split_ifs <;> rfl

theorem setColourTrue_Generic (rd : ManaData) (s : List Char) :
    (setColourTrue rd s).Generic_Mana = rd.Generic_Mana := by
  unfold setColourTrue; split_ifs <;> rfl

theorem setColourTrue_Hybrid (rd : ManaData) (s : List Char) :
    (setColourTrue rd s).Is_Hybrid = rd.Is_Hybrid := by
  unfold setColourTrue; split_ifs <;> rfl

theorem setColourTrue_X (rd : ManaData) (s : List Char) :
    (setColourTrue rd s).Is_X = rd.Is_X := by
  unfold setColourTrue; split_ifs <;> rfl

theorem setColourTrue_W (rd : ManaData) (s : List Char) :
    (setColourTrue rd s).Is_W = (rd.Is_W || decide (s = ['W'])) := by
  unfold setColourTrue
  split_ifs with h1 h2 h3 h4 h5 h6 <;> simp [h1]

theorem setColourTrue_U (rd : ManaData) (s : List Char) :
    (setColourTrue rd s).Is_U = (rd.Is_U || decide (s = ['U'])) := by
  unfold setColourTrue
  split_ifs with h1 h2 h3 h4 h5 h6 <;> simp_all

theorem setColourTrue_B (rd : ManaData) (s : List Char) :
    (setColourTrue rd s).Is_B = (rd.Is_B || decide (s = ['B'])) := by
  unfold setColourTrue
  split_ifs with h1 h2 h3 h4 h5 h6 <;> simp_all

theorem setColourTrue_R (rd : ManaData) (s : List Char) :
    (setColourTrue rd s).Is_R = (rd.Is_R || decide (s = ['R'])) := by
  unfold setColourTrue
  split_ifs with h1 h2 h3 h4 h5 h6 <;> simp_all

theorem setColourTrue_G (rd : ManaData) (s : List Char) :
    (setColourTrue rd s).Is_G = (rd.Is_G || decide (s = ['G'])) := by
  unfold setColourTrue
  split_ifs with h1 h2 h3 h4 h5 h6 <;> simp_all

theorem setColourTrue_C (rd : ManaData) (s : List Char) :
    (setColourTrue rd s).Is_C = (rd.Is_C || decide (s = ['C'])) := by
  unfold setColourTrue
  split_ifs with h1 h2 h3 h4 h5 h6 <;> simp_all

theorem foldl_setColour_CMC (sides : List (List Char)) (rd : ManaData) :
    (sides.foldl setColourTrue rd).CMC = rd.CMC := by
  induction sides generalizing rd with
  | nil => rfl
  | cons s ss ih => rw [List.foldl_cons, ih, setColourTrue_CMC]

theorem foldl_setColour_Generic (sides : List (List Char)) (rd : ManaData) :
    (sides.foldl setColourTrue rd).Generic_Mana = rd.Generic_Mana := by
  induction sides generalizing rd with
  | nil => rfl
  | cons s ss ih => rw [List.foldl_cons, ih, setColourTrue_Generic]

theorem foldl_setColour_Hybrid (sides : List (List Char)) (rd : ManaData) :
    (sides.foldl setColourTrue rd).Is_Hybrid = rd.Is_Hybrid := by
  induction sides generalizing rd with
  | nil => rfl
  | cons s ss ih => rw [List.foldl_cons, ih, setColourTrue_Hybrid]

theorem foldl_setColour_X (sides : List (List Char)) (rd : ManaData) :
    (sides.foldl setColourTrue rd).Is_X = rd.Is_X := by
  induction sides generalizing rd with
  | nil => rfl
  | cons s ss ih => rw [List.foldl_cons, ih, setColourTrue_X]

theorem foldl_setColour_W (sides : List (List Char)) (rd : ManaData) :
    (sides.foldl setColourTrue rd).Is_W =
      (rd.Is_W || sides.any (fun s => decide (s = ['W']))) := by
  induction sides generalizing rd with
  | nil => simp
  | cons s ss ih =>
    rw [List.foldl_cons, ih, setColourTrue_W, List.any_cons, Bool.or_assoc]

theorem foldl_setColour_U (sides : List (List Char)) (rd : ManaData) :
    (sides.foldl setColourTrue rd).Is_U =
      (rd.Is_U || sides.any (fun s => decide (s = ['U']))) := by
  induction sides generalizing rd with
  | nil => simp
  | cons s ss ih =>
    rw [List.foldl_cons, ih, setColourTrue_U, List.any_cons, Bool.or_assoc]

theorem foldl_setColour_B (sides : List (List Char)) (rd : ManaData) :
    (sides.foldl setColourTrue rd).Is_B =
      (rd.Is_B || sides.any (fun s => decide (s = ['B']))) := by
  induction sides generalizing rd with
  | nil => simp
  | cons s ss ih =>
    rw [List.foldl_cons, ih, setColourTrue_B, List.any_cons, Bool.or_assoc]

theorem foldl_setColour_R (sides : List (List Char)) (rd : ManaData) :
    (sides.foldl setColourTrue rd).Is_R =
      (rd.Is_R || sides.any (fun s => decide (s = ['R']))) := by
  induction sides generalizing rd with
  | nil => simp
  | cons s ss ih =>
    rw [List.foldl_cons, ih, setColourTrue_R, List.any_cons, Bool.or_assoc]

theorem foldl_setColour_G (sides : List (List Char)) (rd : ManaData) :
    (sides.foldl setColourTrue rd).Is_G =
      (rd.Is_G || sides.any (fun s => decide (s = ['G']))) := by
  induction sides generalizing rd with
  | nil => simp
  | cons s ss ih =>
    rw [List.foldl_cons, ih, setColourTrue_G, List.any_cons, Bool.or_assoc]

theorem foldl_setColour_C (sides : List (List Char)) (rd : ManaData) :
    (sides.foldl setColourTrue rd).Is_C =
      (rd.Is_C || sides.any (fun s => decide (s = ['C']))) := by
  induction sides generalizing rd with
  | nil => simp
  | cons s ss ih =>
    rw [List.foldl_cons, ih, setColourTrue_C, List.any_cons, Bool.or_assoc]

/-! ## Per-token behaviour of `parseManaToken` against the claim reading -/

theorem hybrid_not_digit {part : List Char}
    (hA : '/' ∈ (pyStripChars MANA_MARKER part).map upperChar) :
    pyIsDigit (pyStripChars MANA_MARKER part) = false := by
  by_contra hc
  rw [Bool.not_eq_false] at hc
  rw [pyIsDigit_upper_fixed hc] at hA
  exact pyIsDigit_not_slash hc hA

theorem colour_not_digit {part : List Char}
    (hB : (pyStripChars MANA_MARKER part).map upperChar ∈ COLOURS) :
    pyIsDigit (pyStripChars MANA_MARKER part) = false := by
  by_contra hc
  rw [Bool.not_eq_false] at hc
  rw [pyIsDigit_upper_fixed hc] at hB
  rw [colours_not_digit hB] at hc
  cases hc

theorem digit_not_X {part : List Char}
    (hC : pyIsDigit (pyStripChars MANA_MARKER part) = true) :
    (pyStripChars MANA_MARKER part).map upperChar ≠ ['X'] := by
  rw [pyIsDigit_upper_fixed hC]
  intro he
  rw [he] at hC
  cases hC

theorem parseManaToken_CMC (rd : ManaData) (part : List Char) :
    (parseManaToken rd part).CMC = rd.CMC + claimTokenCMC part := by
  unfold parseManaToken claimTokenCMC claimTokenHybrid claimTwoGeneric
    claimPayload
  by_cases hA : '/' ∈ (pyStripChars MANA_MARKER part).map upperChar
  · have hA' : '/' ∈ part := slash_payload_iff.mp hA
    by_cases hP : SYM2SLASH.isPrefixOf part = true <;>
      simp [hA, hA', hP, foldl_setColour_CMC]
  · have hA' : '/' ∉ part := fun hm => hA (slash_payload_iff.mpr hm)
    by_cases hB : (pyStripChars MANA_MARKER part).map upperChar ∈ COLOURS
    · simp [hA, hA', hB, setColourTrue_CMC]
    · by_cases hC : pyIsDigit (pyStripChars MANA_MARKER part) = true
      · simp [hA, hA', hB, hC]
      · have hX : (['X'] : List Char) ∉ COLOURS := by decide
        by_cases hD : (pyStripChars MANA_MARKER part).map upperChar = ['X'] <;>
          simp [hA, hA', hB, hC, hD, hX]

theorem parseManaToken_Generic (rd : ManaData) (part : List Char) :
    (parseManaToken rd part).Generic_Mana =
      rd.Generic_Mana + claimTokenGeneric part := by
  unfold parseManaToken claimTokenGeneric
  by_cases hA : '/' ∈ (pyStripChars MANA_MARKER part).map upperChar
  · by_cases hP : SYM2SLASH.isPrefixOf part = true <;>
      simp [hA, hP, hybrid_not_digit hA, foldl_setColour_Generic]
  · by_cases hB : (pyStripChars MANA_MARKER part).map upperChar ∈ COLOURS
    · simp [hA, hB, colour_not_digit hB, setColourTrue_Generic]
    · by_cases hC : pyIsDigit (pyStripChars MANA_MARKER part) = true
      · simp [hA, hB, hC]
      · have hX : (['X'] : List Char) ∉ COLOURS := by decide
        by_cases hD : (pyStripChars MANA_MARKER part).map upperChar = ['X'] <;>
          simp [hA, hB, hC, hD, hX]

theorem parseManaToken_Hybrid (rd : ManaData) (part : List Char) :
    (parseManaToken rd part).Is_Hybrid =
      (rd.Is_Hybrid || claimTokenHybrid part) := by
  unfold parseManaToken claimTokenHybrid
  by_cases hA : '/' ∈ (pyStripChars MANA_MARKER part).map upperChar
  · have hA' : '/' ∈ part := slash_payload_iff.mp hA
    by_cases hP : SYM2SLASH.isPrefixOf part = true <;>
      simp [hA, hA', hP, foldl_setColour_Hybrid]
  · have hA' : '/' ∉ part := fun hm => hA (slash_payload_iff.mpr hm)
    by_cases hB : (pyStripChars MANA_MARKER part).map upperChar ∈ COLOURS
    · simp [hA, hA', hB, setColourTrue_Hybrid]
    · by_cases hC : pyIsDigit (pyStripChars MANA_MARKER part) = true
      · simp [hA, hA', hB, hC]
      · have hX : (['X'] : List Char) ∉ COLOURS := by decide
        by_cases hD : (pyStripChars MANA_MARKER part).map upperChar = ['X'] <;>
          simp [hA, hA', hB, hC, hD, hX]

theorem parseManaToken_X (rd : ManaData) (part : List Char) :
    (parseManaToken rd part).Is_X = (rd.Is_X || claimTokenX part) := by
  unfold parseManaToken claimTokenX claimPayload
  by_cases hA : '/' ∈ (pyStripChars MANA_MARKER part).map upperChar
  · have hD : (pyStripChars MANA_MARKER part).map upperChar ≠ ['X'] := by
      intro he; rw [he] at hA; exact absurd hA (by decide)
    by_cases hP : SYM2SLASH.isPrefixOf part = true <;>
      simp [hA, hD, hP, foldl_setColour_X]
  · by_cases hB : (pyStripChars MANA_MARKER part).map upperChar ∈ COLOURS
    · simp [hA, hB, colours_ne_X hB, setColourTrue_X]
    · by_cases hC : pyIsDigit (pyStripChars MANA_MARKER part) = true
      · simp [hA, hB, hC, digit_not_X hC]
      · have hX : (['X'] : List Char) ∉ COLOURS := by decide
        by_cases hD : (pyStripChars MANA_MARKER part).map upperChar = ['X'] <;>
          simp [hA, hB, hC, hD, hX]

theorem parseManaToken_W (rd : ManaData) (part : List Char) :
    (parseManaToken rd part).Is_W = (rd.Is_W || claimNamesColour 'W' part) := by
  unfold parseManaToken claimNamesColour claimTokenHybrid claimPayload
  by_cases hA : '/' ∈ (pyStripChars MANA_MARKER part).map upperChar
  · have hA' : '/' ∈ part := slash_payload_iff.mp hA
    by_cases hP : SYM2SLASH.isPrefixOf part = true <;>
      simp [hA, hA', hP, foldl_setColour_W]
  · have hA' : '/' ∉ part := fun hm => hA (slash_payload_iff.mpr hm)
    by_cases hB : (pyStripChars MANA_MARKER part).map upperChar ∈ COLOURS
    · simp [hA, hA', hB, setColourTrue_W]
    · have hW : ¬((pyStripChars MANA_MARKER part).map upperChar = ['W']) :=
        fun he => hB (by rw [he]; decide)
      by_cases hC : pyIsDigit (pyStripChars MANA_MARKER part) = true
      · simp [hA, hA', hB, hC, hW]
      · have hX : (['X'] : List Char) ∉ COLOURS := by decide
        by_cases hD : (pyStripChars MANA_MARKER part).map upperChar = ['X'] <;>
          simp [hA, hA', hB, hC, hD, hW, hX]

theorem parseManaToken_U (rd : ManaData) (part : List Char) :
    (parseManaToken rd part).Is_U = (rd.Is_U || claimNamesColour 'U' part) := by
  unfold parseManaToken claimNamesColour claimTokenHybrid claimPayload
  by_cases hA : '/' ∈ (pyStripChars MANA_MARKER part).map upperChar
  · have hA' : '/' ∈ part := slash_payload_iff.mp hA
    by_cases hP : SYM2SLASH.isPrefixOf part = true <;>
      simp [hA, hA', hP, foldl_setColour_U]
  · have hA' : '/' ∉ part := fun hm => hA (slash_payload_iff.mpr hm)
    by_cases hB : (pyStripChars MANA_MARKER part).map upperChar ∈ COLOURS
    · simp [hA, hA', hB, setColourTrue_U]
    · have hW : ¬((pyStripChars MANA_MARKER part).map upperChar = ['U']) :=
        fun he => hB (by rw [he]; decide)
      by_cases hC : pyIsDigit (pyStripChars MANA_MARKER part) = true
      · simp [hA, hA', hB, hC, hW]
      · have hX : (['X'] : List Char) ∉ COLOURS := by decide
        by_cases hD : (pyStripChars MANA_MARKER part).map upperChar = ['X'] <;>
          simp [hA, hA', hB, hC, hD, hW, hX]

theorem parseManaToken_B (rd : ManaData) (part : List Char) :
    (parseManaToken rd part).Is_B = (rd.Is_B || claimNamesColour 'B' part) := by
  unfold parseManaToken claimNamesColour claimTokenHybrid claimPayload
  by_cases hA : '/' ∈ (pyStripChars MANA_MARKER part).map upperChar
  · have hA' : '/' ∈ part := slash_payload_iff.mp hA
    by_cases hP : SYM2SLASH.isPrefixOf part = true <;>
      simp [hA, hA', hP, foldl_setColour_B]
  · have hA' : '/' ∉ part := fun hm => hA (slash_payload_iff.mpr hm)
    by_cases hB : (pyStripChars MANA_MARKER part).map upperChar ∈ COLOURS
    · simp [hA, hA', hB, setColourTrue_B]
    · have hW : ¬((pyStripChars MANA_MARKER part).map upperChar = ['B']) :=
        fun he => hB (by rw [he]; decide)
      by_cases hC : pyIsDigit (pyStripChars MANA_MARKER part) = true
      · simp [hA, hA', hB, hC, hW]
      · have hX : (['X'] : List Char) ∉ COLOURS := by decide
        by_cases hD : (pyStripChars MANA_MARKER part).map upperChar = ['X'] <;>
          simp [hA, hA', hB, hC, hD, hW, hX]

theorem parseManaToken_R (rd : ManaData) (part : List Char) :
    (parseManaToken rd part).Is_R = (rd.Is_R || claimNamesColour 'R' part) := by
  unfold parseManaToken claimNamesColour claimTokenHybrid claimPayload
  by_cases hA : '/' ∈ (pyStripChars MANA_MARKER part).map upperChar
  · have hA' : '/' ∈ part := slash_payload_iff.mp hA
    by_cases hP : SYM2SLASH.isPrefixOf part = true <;>
      simp [hA, hA', hP, foldl_setColour_R]
  · have hA' : '/' ∉ part := fun hm => hA (slash_payload_iff.mpr hm)
    by_cases hB : (pyStripChars MANA_MARKER part).map upperChar ∈ COLOURS
    · simp [hA, hA', hB, setColourTrue_R]
    · have hW : ¬((pyStripChars MANA_MARKER part).map upperChar = ['R']) :=
        fun he => hB (by rw [he]; decide)
      by_cases hC : pyIsDigit (pyStripChars MANA_MARKER part) = true
      · simp [hA, hA', hB, hC, hW]
      · have hX : (['X'] : List Char) ∉ COLOURS := by decide
        by_cases hD : (pyStripChars MANA_MARKER part).map upperChar = ['X'] <;>
          simp [hA, hA', hB, hC, hD, hW, hX]

theorem parseManaToken_G (rd : ManaData) (part : List Char) :
    (parseManaToken rd part).Is_G = (rd.Is_G || claimNamesColour 'G' part) := by
  unfold parseManaToken claimNamesColour claimTokenHybrid claimPayload
  by_cases hA : '/' ∈ (pyStripChars MANA_MARKER part).map upperChar
  · have hA' : '/' ∈ part := slash_payload_iff.mp hA
    by_cases hP : SYM2SLASH.isPrefixOf part = true <;>
      simp [hA, hA', hP, foldl_setColour_G]
  · have hA' : '/' ∉ part := fun hm => hA (slash_payload_iff.mpr hm)
    by_cases hB : (pyStripChars MANA_MARKER part).map upperChar ∈ COLOURS
    · simp [hA, hA', hB, setColourTrue_G]
    · have hW : ¬((pyStripChars MANA_MARKER part).map upperChar = ['G']) :=
        fun he => hB (by rw [he]; decide)
      by_cases hC : pyIsDigit (pyStripChars MANA_MARKER part) = true
      · simp [hA, hA', hB, hC, hW]
      · have hX : (['X'] : List Char) ∉ COLOURS := by decide
        by_cases hD : (pyStripChars MANA_MARKER part).map upperChar = ['X'] <;>
          simp [hA, hA', hB, hC, hD, hW, hX]

theorem parseManaToken_C (rd : ManaData) (part : List Char) :
    (parseManaToken rd part).Is_C = (rd.Is_C || claimNamesColour 'C' part) := by
  unfold parseManaToken claimNamesColour claimTokenHybrid claimPayload
  by_cases hA : '/' ∈ (pyStripChars MANA_MARKER part).map upperChar
  · have hA' : '/' ∈ part := slash_payload_iff.mp hA
    by_cases hP : SYM2SLASH.isPrefixOf part = true <;>
      simp [hA, hA', hP, foldl_setColour_C]
  · have hA' : '/' ∉ part := fun hm => hA (slash_payload_iff.mpr hm)
    by_cases hB : (pyStripChars MANA_MARKER part).map upperChar ∈ COLOURS
    · simp [hA, hA', hB, setColourTrue_C]
    · have hW : ¬((pyStripChars MANA_MARKER part).map upperChar = ['C']) :=
        fun he => hB (by rw [he]; decide)
      by_cases hC : pyIsDigit (pyStripChars MANA_MARKER part) = true
      · simp [hA, hA', hB, hC, hW]
      · have hX : (['X'] : List Char) ∉ COLOURS := by decide
        by_cases hD : (pyStripChars MANA_MARKER part).map upperChar = ['X'] <;>
          simp [hA, hA', hB, hC, hD, hW, hX]

/-! ## Folding the per-token behaviour over the whole token list -/

theorem foldl_parse_CMC (toks : List (List Char)) (rd : ManaData) :
    (toks.foldl parseManaToken rd).CMC =
      rd.CMC + (toks.map claimTokenCMC).sum := by
  induction toks generalizing rd with
  | nil => simp
  | cons t ts ih =>
    rw [List.foldl_cons, ih, parseManaToken_CMC, List.map_cons, List.sum_cons,
      Nat.add_assoc]

theorem foldl_parse_Generic (toks : List (List Char)) (rd : ManaData) :
    (toks.foldl parseManaToken rd).Generic_Mana =
      rd.Generic_Mana + (toks.map claimTokenGeneric).sum := by
  induction toks generalizing rd with
  | nil => simp
  | cons t ts ih =>
    rw [List.foldl_cons, ih, parseManaToken_Generic, List.map_cons,
      List.sum_cons, Nat.add_assoc]

theorem foldl_parse_Hybrid (toks : List (List Char)) (rd : ManaData) :
    (toks.foldl parseManaToken rd).Is_Hybrid =
      (rd.Is_Hybrid || toks.any claimTokenHybrid) := by
  induction toks generalizing rd with
  | nil => simp
  | cons t ts ih =>
    rw [List.foldl_cons, ih, parseManaToken_Hybrid, List.any_cons,
      Bool.or_assoc]

theorem foldl_parse_X (toks : List (List Char)) (rd : ManaData) :
    (toks.foldl parseManaToken rd).Is_X = (rd.Is_X || toks.any claimTokenX) := by
  induction toks generalizing rd with
  | nil => simp
  | cons t ts ih =>
    rw [List.foldl_cons, ih, parseManaToken_X, List.any_cons, Bool.or_assoc]

theorem foldl_parse_W (toks : List (List Char)) (rd : ManaData) :
    (toks.foldl parseManaToken rd).Is_W =
      (rd.Is_W || toks.any (claimNamesColour 'W')) := by
  induction toks generalizing rd with
  | nil => simp
  | cons t ts ih =>
    rw [List.foldl_cons, ih, parseManaToken_W, List.any_cons, Bool.or_assoc]

theorem foldl_parse_U (toks : List (List Char)) (rd : ManaData) :
    (toks.foldl parseManaToken rd).Is_U =
      (rd.Is_U || toks.any (claimNamesColour 'U')) := by
  induction toks generalizing rd with
  | nil => simp
  | cons t ts ih =>
    rw [List.foldl_cons, ih, parseManaToken_U, List.any_cons, Bool.or_assoc]

theorem foldl_parse_B (toks : List (List Char)) (rd : ManaData) :
    (toks.foldl parseManaToken rd).Is_B =
      (rd.Is_B || toks.any (claimNamesColour 'B')) := by
  induction toks generalizing rd with
  | nil => simp
  | cons t ts ih =>
    rw [List.foldl_cons, ih, parseManaToken_B, List.any_cons, Bool.or_assoc]

theorem foldl_parse_R (toks : List (List Char)) (rd : ManaData) :
    (toks.foldl parseManaToken rd).Is_R =
      (rd.Is_R || toks.any (claimNamesColour 'R')) := by
  induction toks generalizing rd with
  | nil => simp
  | cons t ts ih =>
    rw [List.foldl_cons, ih, parseManaToken_R, List.any_cons, Bool.or_assoc]

theorem foldl_parse_G (toks : List (List Char)) (rd : ManaData) :
    (toks.foldl parseManaToken rd).Is_G =
      (rd.Is_G || toks.any (claimNamesColour 'G')) := by
  induction toks generalizing rd with
  | nil => simp
  | cons t ts ih =>
    rw [List.foldl_cons, ih, parseManaToken_G, List.any_cons, Bool.or_assoc]

theorem foldl_parse_C (toks : List (List Char)) (rd : ManaData) :
    (toks.foldl parseManaToken rd).Is_C =
      (rd.Is_C || toks.any (claimNamesColour 'C')) := by
  induction toks generalizing rd with
  | nil => simp
  | cons t ts ih =>
    rw [List.foldl_cons, ih, parseManaToken_C, List.any_cons, Bool.or_assoc]

/-- C1: for every space-separated mana-cost string, `parse_mana_cost` returns
the record the specification describes — CMC as the sum of per-token
contributions (1 per colour pip, 2 per `sym_2/`-prefixed hybrid, 1 per other
hybrid, N per numeric token, 0 for X), Generic_Mana as the sum of the numeric
tokens, each colour flag iff some token or hybrid side names that colour,
Is_Hybrid iff some token contains a slash, Is_X iff some payload is `X` —
together with the two worked examples and the empty-string case. -/
theorem c1_parse_mana_cost_matches_spec :
    (∀ s : String, parse_mana_cost s = claimParse s) ∧
    parse_mana_cost "sym_3 sym_W sym_B" =
      { CMC := 5, Is_Hybrid := false, Generic_Mana := 3, Is_X := false,
        Is_W := true, Is_U := false, Is_B := true, Is_R := false,
        Is_G := false, Is_C := false } ∧
    parse_mana_cost "sym_2 sym_2/u" =
      { CMC := 4, Is_Hybrid := true, Generic_Mana := 2, Is_X := false,
        Is_W := false, Is_U := true, Is_B := false, Is_R := false,
        Is_G := false, Is_C := false } ∧
    parse_mana_cost "" =
      { CMC := 0, Is_Hybrid := false, Generic_Mana := 0, Is_X := false,
        Is_W := false, Is_U := false, Is_B := false, Is_R := false,
        Is_G := false, Is_C := false } := by
  refine ⟨fun s => ?_, by decide, by decide, by decide⟩
  unfold parse_mana_cost claimParse
  ext
  · rw [foldl_parse_CMC]; simp [initManaData]
  · rw [foldl_parse_Hybrid]; rfl
  · rw [foldl_parse_Generic]; simp [initManaData]
  · rw [foldl_parse_X]; rfl
  · rw [foldl_parse_W]; rfl
  · rw [foldl_parse_U]; rfl
  · rw [foldl_parse_B]; rfl
  · rw [foldl_parse_R]; rfl
  · rw [foldl_parse_G]; rfl
  · rw [foldl_parse_C]; rfl

/-! ## `clean_types` (cleaner.py lines 42-93) -/

/-- The fixed super-type vocabulary `SUPER_TYPES_MTG` (stored uppercase). -/
def SUPER_TYPES_MTG : List (List Char) :=
  ["BASIC", "LEGENDARY", "ONGOING", "SNOW", "WORLD", "TRIBAL",
   "PLANE"].map String.toList

/-- Result record of `clean_types`. -/
structure TypeResult where
  Super_Type : String
  Primary_Type : String
  Subtypes_List : String
  deriving DecidableEq, Repr

/-- The character class `[-—]` of the dash-split regex. -/
def isDashChar (c : Char) : Bool := c = '-' || c = '—'

/-- Split at the first hyphen or em-dash, keeping the surrounding text.
Models `re.split(r"\s*[-—]\s*", type_str, 1)`: the regex additionally eats
whitespace around the dash, but both halves are immediately re-trimmed /
whitespace-tokenised by `clean_types`, so keeping that whitespace here is
observationally identical. -/
def splitFirstDash : List Char → List Char × Option (List Char)
  | [] => ([], none)
  | c :: rest =>
    if isDashChar c then ([], some rest)
    else
      let (left, r) := splitFirstDash rest
      (c :: left, r)

/-- Python `sep.join(parts)`. -/
def joinSep (sep : List Char) : List (List Char) → List Char
  | [] => []
  | [x] => x
  | x :: xs => x ++ sep ++ joinSep sep xs

/-- `clean_types`: split main segment from subtypes at the first dash,
comma-join the whitespace-split subtypes, and classify the main-segment
words against the super-type vocabulary (case-insensitively). -/
def clean_types (type_str : String) : TypeResult :=
  let ts := pyTrimList type_str.toList
  if ts.isEmpty then { Super_Type := "", Primary_Type := "", Subtypes_List := "" }
  else
    let dash_split := splitFirstDash ts
    let primary_line := pyTrimList dash_split.1
    let subtypes_list :=
      match dash_split.2 with
      | none => []
      | some raw_subtypes =>
        joinSep [','] (pySplitWhitespace (pyTrimList raw_subtypes))
    let type_parts := pySplitWhitespace primary_line
    let super_types :=
      type_parts.filter (fun p => SUPER_TYPES_MTG.contains (p.map upperChar))
    let primary_types :=
      type_parts.filter (fun p => !SUPER_TYPES_MTG.contains (p.map upperChar))
    { Super_Type := String.mk (joinSep [' '] super_types)
      Primary_Type := String.mk (joinSep [' '] primary_types)
      Subtypes_List := String.mk subtypes_list }

example : clean_types "Legendary Creature - Elf Warrior" =
    { Super_Type := "Legendary", Primary_Type := "Creature",
      Subtypes_List := "Elf,Warrior" } := by decide

example : clean_types "Artifact — Equipment" =
    { Super_Type := "", Primary_Type := "Artifact",
      Subtypes_List := "Equipment" } := by decide

example : clean_types "" =
    { Super_Type := "", Primary_Type := "", Subtypes_List := "" } := by decide

theorem mem_of_mem_pyStripChars {chars l : List Char} {c : Char}
    (h : c ∈ pyStripChars chars l) : c ∈ l := by
  unfold pyStripChars at h
  rw [List.mem_reverse] at h
  have h1 := mem_of_mem_dropWhile h
  rw [List.mem_reverse] at h1
  exact mem_of_mem_dropWhile h1

theorem splitFirstDash_no_dash {l : List Char}
    (h : ∀ c ∈ l, isDashChar c = false) : splitFirstDash l = (l, none) := by
  induction l with
  | nil => rfl
  | cons c rest ih =>
    unfold splitFirstDash
    rw [h c (List.mem_cons_self c rest)]
    simp only [Bool.false_eq_true, if_false]
    rw [ih (fun d hd => h d (List.mem_cons_of_mem c hd))]

/-- C8 counterexample: the claim reads "contains no hyphen", but a type
string containing only an em-dash still yields a non-empty subtype list. -/
theorem c8_counterexample :
    ('-' ∉ "Artifact — Equipment".toList) ∧
    (clean_types "Artifact — Equipment").Subtypes_List ≠ "" := by decide

/-- C8 (amended): for every type string containing neither a hyphen nor an
em-dash, `clean_types` returns an empty `Subtypes_List`. -/
theorem c8_no_dash_no_subtypes (type_str : String)
    (h1 : '-' ∉ type_str.toList) (h2 : '—' ∉ type_str.toList) :
    (clean_types type_str).Subtypes_List = "" := by
  unfold clean_types
  simp only [String.toList]
  by_cases he : pyTrimList type_str.data = []
  · simp [he]
  · have hnd : ∀ c ∈ pyTrimList type_str.data, isDashChar c = false := by
      intro c hc
      have hc' := mem_of_mem_pyStripChars hc
      unfold isDashChar
      apply Bool.or_eq_false_iff.mpr
      constructor
      · exact decide_eq_false (fun hd => h1 (hd ▸ hc'))
      · exact decide_eq_false (fun hd => h2 (hd ▸ hc'))
    simp [he, splitFirstDash_no_dash hnd]

/-- C8 witness: the amended theorem applied at a concrete dash-free input. -/
theorem c8_no_dash_no_subtypes_witness :
    (clean_types "Legendary Creature").Subtypes_List = "" :=
  c8_no_dash_no_subtypes "Legendary Creature" (by decide) (by decide)

/-! ## C7: unrecognized mana tokens -/

/-- The spec grammar of one mana payload (claim C7): a digit sequence, one
of the six colour letters, or `X`. -/
def grammarPayload (p : List Char) : Bool :=
  pyIsDigit p || COLOURS.contains p || decide (p = ['X'])

/-- The spec grammar of one whole token (claim C7): a plain grammar payload,
or exactly two grammar payloads joined by a slash. -/
def claimGrammarToken (part : List Char) : Bool :=
  let payload := claimPayload part
  if decide ('/' ∈ payload) then
    match splitSlash payload with
    | [a, b] => grammarPayload a && grammarPayload b
    | _ => false
  else grammarPayload payload

/-- A token the code actually ignores: every branch guard of the
`parse_mana_cost` token loop is false. -/
def unrecognisedToken (part : List Char) : Bool :=
  let symbol_value_raw := pyStripChars MANA_MARKER part
  let symbol_value_normalised := symbol_value_raw.map upperChar
  !decide ('/' ∈ symbol_value_normalised) &&
  !decide (symbol_value_normalised ∈ COLOURS) &&
  !pyIsDigit symbol_value_raw &&
  !decide (symbol_value_normalised = ['X'])

theorem parseManaToken_unrecognised {part : List Char}
    (h : unrecognisedToken part = true) (rd : ManaData) :
    parseManaToken rd part = rd := by
  unfold unrecognisedToken at h
  simp only [Bool.and_eq_true, Bool.not_eq_true', decide_eq_false_iff_not,
    Bool.not_eq_true] at h
  obtain ⟨⟨⟨hA, hB⟩, hC⟩, hD⟩ := h
  unfold parseManaToken
  simp [hA, hB, hC, hD]

/-- C7 counterexample: `sym_q/z` is not a symbol of the spec grammar, yet
removing it changes the parse result — slash-bearing tokens are always
treated as hybrid, even with unrecognized sides. -/
theorem c7_counterexample :
    claimGrammarToken "sym_q/z".toList = false ∧
    parse_mana_cost "sym_q/z" ≠ parse_mana_cost "" := by decide

/-- C7 (amended): removing any token whose marker-stripped payload contains
no slash, is not a colour letter, is not a digit sequence and is not `X`
leaves the fold of `parse_mana_cost` unchanged; tokens containing a slash,
by contrast, always contribute as hybrids. -/
theorem c7_unrecognised_token_ignored (pre post : List (List Char))
    (t : List Char) (rd : ManaData) (h : unrecognisedToken t = true) :
    (pre ++ t :: post).foldl parseManaToken rd =
      (pre ++ post).foldl parseManaToken rd := by
  rw [List.foldl_append, List.foldl_append, List.foldl_cons,
    parseManaToken_unrecognised h]

/-- C7 witness: the amended theorem applied at a concrete unrecognized
token between two recognized ones. -/
theorem c7_unrecognised_token_ignored_witness :
    unrecognisedToken "sym_foo!".toList = true ∧
    ["sym_3".toList, "sym_foo!".toList, "sym_W".toList].foldl
        parseManaToken initManaData =
      ["sym_3".toList, "sym_W".toList].foldl parseManaToken initManaData :=
  ⟨by decide,
    c7_unrecognised_token_ignored ["sym_3".toList] ["sym_W".toList]
      "sym_foo!".toList initManaData (by decide)⟩

/-! ## The orchestrator `run_cleaner` (cleaner.py lines 275-371)

DataFrames are lists of records; one structure per table schema. -/

/-- The constant `PREFIX_TO_REMOVE = "Cheapest Recent Printing - "`. -/
def PREFIX_TO_REMOVE : List Char := "Cheapest Recent Printing - ".toList

/-- Worker for Python `str.replace(pat, "")` with a non-empty pattern:
remove the leftmost occurrence, continue after it, scanning left to right.
`fuel` bounds the scan by the string length so the recursion is structural. -/
def removeAllAux (pat : List Char) : Nat → List Char → List Char
  | _, [] => []
  | 0, l => l
  | fuel + 1, c :: rest =>
    if pat.isPrefixOf (c :: rest) then
      removeAllAux pat fuel (List.drop (pat.length - 1) rest)
    else c :: removeAllAux pat fuel rest

/-- Python `l.replace(pat, "")`: remove every non-overlapping occurrence of
`pat`, left to right. -/
def removeAll (pat l : List Char) : List Char := removeAllAux pat l.length l

/-- Step 1 of `run_cleaner`:
`df["Edition"].astype(str).str.replace(PREFIX_TO_REMOVE, "", regex=False).str.strip()`.
pandas `str.replace` with `regex=False` replaces every occurrence of the
substring, anywhere in the value. -/
def cleanEdition (e : String) : String :=
  String.mk (pyTrimList (removeAll PREFIX_TO_REMOVE e.toList))

/-- One raw scraped row with the input column contract
`Name, Edition, Price, Type, Mana Cost`.  The `Type` column is called
`TypeLine` here because `Type` is a Lean keyword; `ManaCost` is the
`Mana Cost` column. -/
structure RawRow where
  Name : String
  Edition : String
  Price : String
  TypeLine : String
  ManaCost : String
  deriving DecidableEq, Repr

/-- Steps 1-3 of `run_cleaner` on one row: clean Edition, trim
`Mana Cost` and `Type` (`fillna("")`/`astype(str)` are identities in this
string model).  Step 2 drops `Price`; the field is simply never read
afterwards. -/
def prepRow (r : RawRow) : RawRow :=
  { r with Edition := cleanEdition r.Edition,
           ManaCost := pyTrim r.ManaCost,
           TypeLine := pyTrim r.TypeLine }

/-- One card face as assembled by `process_card_face`: Name and Edition
carried over, then the `clean_types` fields, then the `parse_mana_cost`
fields. -/
structure CardFace where
  Name : String
  Edition : String
  Super_Type : String
  Primary_Type : String
  Subtypes_List : String
  CMC : Nat
  Is_Hybrid : Bool
  Generic_Mana : Nat
  Is_X : Bool
  Is_W : Bool
  Is_U : Bool
  Is_B : Bool
  Is_R : Bool
  Is_G : Bool
  Is_C : Bool
  deriving DecidableEq, Repr

/-- `process_card_face` (cleaner.py lines 159-170). -/
def process_card_face (original_row : RawRow)
    (type_str mana_str face_name : String) : CardFace :=
  let ct := clean_types type_str
  let mc := parse_mana_cost mana_str
  { Name := face_name
    Edition := original_row.Edition
    Super_Type := ct.Super_Type
    Primary_Type := ct.Primary_Type
    Subtypes_List := ct.Subtypes_List
    CMC := mc.CMC
    Is_Hybrid := mc.Is_Hybrid
    Generic_Mana := mc.Generic_Mana
    Is_X := mc.Is_X
    Is_W := mc.Is_W
    Is_U := mc.Is_U
    Is_B := mc.Is_B
    Is_R := mc.Is_R
    Is_G := mc.Is_G
    Is_C := mc.Is_C }

/-- Python `"//" in s`. -/
def containsDD : List Char → Bool
  | '/' :: '/' :: _ => true
  | _ :: rest => containsDD rest
  | [] => false

/-- Python `s.split("//")`: split on non-overlapping occurrences of the
face separator, left to right, keeping empty fields. -/
def splitDD : List Char → List (List Char)
  | '/' :: '/' :: rest => [] :: splitDD rest
  | c :: rest =>
    match splitDD rest with
    | [] => [[c]]
    | p :: ps => (c :: p) :: ps
  | [] => [[]]

/-- The body of the `for index, row in df.iterrows()` loop of `run_cleaner`
for one (already prepped) row: two faces for a well-formed split card, none
for a malformed one (`logger.warning` + `continue`), one face otherwise.
`getD` models the Python `parts[0]`/`parts[1]` indexing, which is always
in range on the taken branches. -/
def expandRow (row : RawRow) : List CardFace :=
  let original_name := row.Name
  let type_str := row.TypeLine
  let mana_str := row.ManaCost
  if containsDD type_str.toList then
    let name_parts := (splitDD original_name.toList).map String.mk
    let type_parts := (splitDD type_str.toList).map String.mk
    let mana_parts :=
      if containsDD mana_str.toList then (splitDD mana_str.toList).map String.mk
      else [pyTrim mana_str, ""]
    if name_parts.length = type_parts.length ∧ type_parts.length = 2 then
      [process_card_face row (pyTrim (type_parts.getD 0 ""))
          (pyTrim (mana_parts.getD 0 "")) (pyTrim (name_parts.getD 0 "")),
       process_card_face row (pyTrim (type_parts.getD 1 ""))
          (pyTrim (mana_parts.getD 1 "")) (pyTrim (name_parts.getD 1 ""))]
    else []
  else [process_card_face row type_str mana_str original_name]

/-- Steps 1-3 applied to the whole frame followed by the face-expansion
loop: the accumulated `final_rows` list, in row-then-face order. -/
def facesOf (df : List RawRow) : List CardFace :=
  ((df.map prepRow).map expandRow).flatten

/-- A `CardDetails` row right after step 4 (`Card_ID` assigned, raw
`Mana Cost` column dropped — the faces never carried it). -/
structure CardRow where
  Card_ID : Nat
  Name : String
  Edition : String
  Super_Type : String
  Primary_Type : String
  Subtypes_List : String
  CMC : Nat
  Is_Hybrid : Bool
  Generic_Mana : Nat
  Is_X : Bool
  Is_W : Bool
  Is_U : Bool
  Is_B : Bool
  Is_R : Bool
  Is_G : Bool
  Is_C : Bool
  deriving DecidableEq, Repr

/-- Step 4: `Card_ID` is the reset index plus one. -/
def toCardRow (i : Nat) (f : CardFace) : CardRow :=
  { Card_ID := i + 1, Name := f.Name, Edition := f.Edition,
    Super_Type := f.Super_Type, Primary_Type := f.Primary_Type,
    Subtypes_List := f.Subtypes_List, CMC := f.CMC,
    Is_Hybrid := f.Is_Hybrid, Generic_Mana := f.Generic_Mana,
    Is_X := f.Is_X, Is_W := f.Is_W, Is_U := f.Is_U, Is_B := f.Is_B,
    Is_R := f.Is_R, Is_G := f.Is_G, Is_C := f.Is_C }

/-- Step 4 over the accumulated face list. -/
def assignCardIds (final_rows : List CardFace) : List CardRow :=
  final_rows.enum.map (fun p => toCardRow p.1 p.2)

/-- Python `s.split(",")`. -/
def splitComma : List Char → List (List Char)
  | ',' :: rest => [] :: splitComma rest
  | c :: rest =>
    match splitComma rest with
    | [] => [[c]]
    | p :: ps => (c :: p) :: ps
  | [] => [[]]

/-- `.str.split(",") ... .str.strip()` then `!= ""` filter: the cleaned
subtype tokens of one `Subtypes_List` cell. -/
def faceSubtypeNames (s : String) : List String :=
  (((splitComma s.toList).map pyTrimList).map String.mk).filter
    (fun nm => nm ≠ "")

/-- Worker for pandas `drop_duplicates` (keep first occurrence); `seen`
holds the values already emitted. -/
def dropDupAux [DecidableEq α] : List α → List α → List α
  | [], _ => []
  | x :: xs, seen =>
    if x ∈ seen then dropDupAux xs seen
    else x :: dropDupAux xs (x :: seen)

/-- pandas `drop_duplicates()`: distinct values in first-occurrence order. -/
def dropDuplicates [DecidableEq α] (l : List α) : List α := dropDupAux l []

/-- First index of `a` in `l`, used to model a pandas left merge against a
deduplicated (hence unique-keyed) lookup table. -/
def firstIndex [DecidableEq α] (a : α) : List α → Option Nat
  | [] => none
  | x :: xs => if x = a then some 0 else (firstIndex a xs).map (· + 1)

/-- Row of the subtype lookup table (`Subtype_Name`, `Subtype_ID`). -/
structure SubtypeRow where
  Subtype_Name : String
  Subtype_ID : Nat
  deriving DecidableEq, Repr

/-- Row of the edition lookup table (`Edition_Name`, `Edition_ID`). -/
structure EditionRow where
  Edition_Name : String
  Edition_ID : Nat
  deriving DecidableEq, Repr

/-- Row of the card-subtype link table; `Subtype_ID` is optional because a
pandas left merge yields NaN for an unmatched key. -/
structure LinkRow where
  Card_ID : Nat
  Subtype_ID : Option Nat
  deriving DecidableEq, Repr

/-- `CardDetails` row after `normalise_subtypes` dropped `Subtypes_List`. -/
structure CardNoSubtypes where
  Card_ID : Nat
  Name : String
  Edition : String
  Super_Type : String
  Primary_Type : String
  CMC : Nat
  Is_Hybrid : Bool
  Generic_Mana : Nat
  Is_X : Bool
  Is_W : Bool
  Is_U : Bool
  Is_B : Bool
  Is_R : Bool
  Is_G : Bool
  Is_C : Bool
  deriving DecidableEq, Repr

/-- `df.drop(columns=["Subtypes_List"])`. -/
def dropSubtypesColumn (r : CardRow) : CardNoSubtypes :=
  { Card_ID := r.Card_ID, Name := r.Name, Edition := r.Edition,
    Super_Type := r.Super_Type, Primary_Type := r.Primary_Type,
    CMC := r.CMC, Is_Hybrid := r.Is_Hybrid, Generic_Mana := r.Generic_Mana,
    Is_X := r.Is_X, Is_W := r.Is_W, Is_U := r.Is_U, Is_B := r.Is_B,
    Is_R := r.Is_R, Is_G := r.Is_G, Is_C := r.Is_C }

/-- Final `CardDetails` row after `normalise_edition`: columns reordered to
`Card_ID, Edition_ID, ...`, raw `Edition` text dropped.  `Edition_ID` is
optional because the pandas left merge yields NaN for an unmatched key. -/
structure CardDetails where
  Card_ID : Nat
  Edition_ID : Option Nat
  Name : String
  Super_Type : String
  Primary_Type : String
  CMC : Nat
  Is_Hybrid : Bool
  Generic_Mana : Nat
  Is_X : Bool
  Is_W : Bool
  Is_U : Bool
  Is_B : Bool
  Is_R : Bool
  Is_G : Bool
  Is_C : Bool
  deriving DecidableEq, Repr

/-- `normalise_subtypes` (cleaner.py lines 173-230): explode the comma-join
column into the deduplicated lookup table and the (Card_ID, Subtype_ID)
link table.  The left merge against the unique-keyed lookup is the
element-wise `firstIndex` translation; `drop_duplicates` keeps the first
occurrence, as pandas does. -/
def normalise_subtypes (df : List CardRow) :
    List CardNoSubtypes × List SubtypeRow × List LinkRow :=
  let subtypes_series :=
    (df.map (fun r => faceSubtypeNames r.Subtypes_List)).flatten
  let lookupNames := dropDuplicates subtypes_series
  let subtype_lookup_df :=
    lookupNames.enum.map (fun p => SubtypeRow.mk p.2 (p.1 + 1))
  let exploded_pairs :=
    (df.map (fun r =>
      (faceSubtypeNames r.Subtypes_List).map (fun nm => (r.Card_ID, nm)))).flatten
  let card_subtype_link_df :=
    dropDuplicates (exploded_pairs.map (fun p =>
      LinkRow.mk p.1 ((firstIndex p.2 lookupNames).map (· + 1))))
  (df.map dropSubtypesColumn, subtype_lookup_df, card_subtype_link_df)

/-- `normalise_edition` (cleaner.py lines 233-267): deduplicated edition
lookup, `Edition_ID` merged back as a foreign key, raw text column
dropped, key columns up front. -/
def normalise_edition (card_df : List CardNoSubtypes) :
    List CardDetails × List EditionRow :=
  let editionNames := dropDuplicates (card_df.map (fun r => r.Edition))
  let edition_lookup_df :=
    editionNames.enum.map (fun p => EditionRow.mk p.2 (p.1 + 1))
  let card_df_with_fk := card_df.map (fun r =>
    CardDetails.mk r.Card_ID ((firstIndex r.Edition editionNames).map (· + 1))
      r.Name r.Super_Type r.Primary_Type r.CMC r.Is_Hybrid r.Generic_Mana
      r.Is_X r.Is_W r.Is_U r.Is_B r.Is_R r.Is_G r.Is_C)
  (card_df_with_fk, edition_lookup_df)

/-- Steps 5-6 of `run_cleaner` on a frame that has its columns (at least
one row): normalise subtypes, then editions. -/
def cleanTables (clean_df : List CardRow) :
    List CardDetails × List EditionRow × List SubtypeRow × List LinkRow :=
  let step5 := normalise_subtypes clean_df
  let step6 := normalise_edition step5.1
  (step6.1, step6.2, step5.2.1, step5.2.2)

/-- Steps 4-6 of `run_cleaner` on the accumulated face list, with the
error path of the real code: `pd.DataFrame(final_rows)` built from an
EMPTY list has no columns at all, so the `df["Subtypes_List"]` access at
the top of `normalise_subtypes` (cleaner.py line 183) raises
`KeyError: Subtypes_List` and `run_cleaner` aborts; with at least one
accumulated face every column exists and the pipeline completes. -/
def buildTables (final_rows : List CardFace) :
    Except String
      (List CardDetails × List EditionRow × List SubtypeRow × List LinkRow) :=
  let clean_df := assignCardIds final_rows
  if clean_df.isEmpty then Except.error "KeyError: Subtypes_List"
  else Except.ok (cleanTables clean_df)

/-- `run_cleaner`: the whole orchestrator — prep the columns, expand the
faces, assign `Card_ID`, normalise subtypes, normalise editions.  Returns
`(card_details, edition_lookup, subtype_lookup, card_subtype_link)`, or
the `KeyError` raised by `normalise_subtypes` when no face at all was
accumulated (empty input, or every row a skipped malformed split row). -/
def run_cleaner (df : List RawRow) :
    Except String
      (List CardDetails × List EditionRow × List SubtypeRow × List LinkRow) :=
  buildTables (facesOf df)

/-- An `Except.ok` result of `run_cleaner` is the pure steps-4-6 pipeline
applied to the accumulated faces. -/
theorem run_cleaner_ok_eq {df : List RawRow}
    {t : List CardDetails × List EditionRow × List SubtypeRow × List LinkRow}
    (h : run_cleaner df = Except.ok t) :
    t = cleanTables (assignCardIds (facesOf df)) := by
  unfold run_cleaner buildTables at h
  dsimp only at h
  by_cases he : (assignCardIds (facesOf df)).isEmpty = true
  · rw [if_pos he] at h; cases h
  · rw [if_neg he] at h
    injection h with h2
    exact h2.symm

/-! ## C2: face expansion of split cards -/

/-- Claim C2 reading of the per-face mana costs: split the `ManaCost`
string on the face separator when it contains one, otherwise the second
face gets the empty cost. -/
def claimManaParts (mana : String) : List String :=
  if containsDD mana.toList then (splitDD mana.toList).map String.mk
  else [mana, ""]

/-- Claim C2 reading of face `i` of a split row: the trimmed per-face name,
the row's Edition, the Type-Line Parser output for the face's (trimmed)
type part and the Mana-Cost Parser output for the face's (trimmed) mana
part. -/
def claimFace (row : RawRow) (i : Nat) : CardFace :=
  let nm := pyTrim (((splitDD row.Name.toList).map String.mk).getD i "")
  let tp := clean_types
    (pyTrim (((splitDD row.TypeLine.toList).map String.mk).getD i ""))
  let mc := parse_mana_cost (pyTrim ((claimManaParts row.ManaCost).getD i ""))
  { Name := nm, Edition := row.Edition,
    Super_Type := tp.Super_Type, Primary_Type := tp.Primary_Type,
    Subtypes_List := tp.Subtypes_List,
    CMC := mc.CMC, Is_Hybrid := mc.Is_Hybrid,
    Generic_Mana := mc.Generic_Mana, Is_X := mc.Is_X,
    Is_W := mc.Is_W, Is_U := mc.Is_U, Is_B := mc.Is_B, Is_R := mc.Is_R,
    Is_G := mc.Is_G, Is_C := mc.Is_C }

/-- C2: every (prepped, hence trimmed) row whose Type contains the face
separator and whose Name and Type both split into exactly two parts expands
to exactly the two claim-described faces, in face order; and the spec's
split-card example row produces exactly the two stated CardDetails rows. -/
theorem c2_split_card_expansion :
    (∀ row : RawRow, pyTrim row.ManaCost = row.ManaCost →
      containsDD row.TypeLine.toList = true →
      (splitDD row.Name.toList).length = 2 →
      (splitDD row.TypeLine.toList).length = 2 →
      expandRow row = [claimFace row 0, claimFace row 1]) ∧
    run_cleaner [{ Name := "Split Face A // Split Face B",
                   Edition := "Test Edition", Price := "1",
                   TypeLine := "Instant // Sorcery",
                   ManaCost := "sym_u // sym_2 sym_g" }] =
      Except.ok
        ([{ Card_ID := 1, Edition_ID := some 1, Name := "Split Face A",
            Super_Type := "", Primary_Type := "Instant", CMC := 1,
            Is_Hybrid := false, Generic_Mana := 0, Is_X := false,
            Is_W := false, Is_U := true, Is_B := false, Is_R := false,
            Is_G := false, Is_C := false },
          { Card_ID := 2, Edition_ID := some 1, Name := "Split Face B",
            Super_Type := "", Primary_Type := "Sorcery", CMC := 3,
            Is_Hybrid := false, Generic_Mana := 2, Is_X := false,
            Is_W := false, Is_U := false, Is_B := false, Is_R := false,
            Is_G := true, Is_C := false }],
         [{ Edition_Name := "Test Edition", Edition_ID := 1 }], [], []) := by
  constructor
  · intro row hm hdd hn ht
    unfold expandRow claimFace claimManaParts process_card_face
    simp only [hdd, if_true, List.length_map]
    rw [if_pos ⟨hn.trans ht.symm, ht⟩, hm]
  · rfl

/-- C2 witness: the expansion conjunct applied at the concrete split row. -/
theorem c2_split_card_expansion_witness :
    expandRow { Name := "Split Face A // Split Face B",
                Edition := "Test Edition", Price := "1",
                TypeLine := "Instant // Sorcery",
                ManaCost := "sym_u // sym_2 sym_g" } =
      [claimFace { Name := "Split Face A // Split Face B",
                   Edition := "Test Edition", Price := "1",
                   TypeLine := "Instant // Sorcery",
                   ManaCost := "sym_u // sym_2 sym_g" } 0,
       claimFace { Name := "Split Face A // Split Face B",
                   Edition := "Test Edition", Price := "1",
                   TypeLine := "Instant // Sorcery",
                   ManaCost := "sym_u // sym_2 sym_g" } 1] :=
  c2_split_card_expansion.1 _ (by decide) (by decide) (by decide) (by decide)

/-! ## C5: determinism -/

/-- C5: `run_cleaner` is deterministic — identical raw inputs produce
identical output tables, contents, order and surrogate keys included; in
this pure embedding the outputs are a function of the input row list
alone. -/
theorem c5_run_cleaner_deterministic (d₁ d₂ : List RawRow) (h : d₁ = d₂) :
    run_cleaner d₁ = run_cleaner d₂ := by rw [h]

/-- C5 witness: the determinism theorem applied at a concrete batch. -/
theorem c5_run_cleaner_deterministic_witness :
    run_cleaner [{ Name := "A", Edition := "E", Price := "0",
                   TypeLine := "Creature - Elf", ManaCost := "sym_g" }] =
      run_cleaner [{ Name := "A", Edition := "E", Price := "0",
                     TypeLine := "Creature - Elf", ManaCost := "sym_g" }] :=
  c5_run_cleaner_deterministic _ _ rfl

/-! ## C6: malformed split rows are skipped -/

/-- C6 counterexample: a batch consisting of a single malformed split row
("A // B // C" has a two-way Type separator check failure) is skipped, so
no face at all is accumulated, the frame built from the empty list is
columnless, and `run_cleaner` raises `KeyError: Subtypes_List` inside
`normalise_subtypes` — it does not complete "without raising an
exception" as the claim states. -/
theorem c6_counterexample :
    containsDD (pyTrim ("A // B // C" : String)).toList = true ∧
    ¬((splitDD ("Bad // Row" : String).toList).length = 2 ∧
      (splitDD (pyTrim ("A // B // C" : String)).toList).length = 2) ∧
    run_cleaner
        [{ Name := "Bad // Row", Edition := "E", Price := "0",
           TypeLine := "A // B // C", ManaCost := "" }] =
      Except.error "KeyError: Subtypes_List" :=
  ⟨by decide, by decide, rfl⟩

/-- C6 (amended): a malformed split row (Type contains the face separator
but Name and Type do not both split into exactly two parts) contributes no
record: `run_cleaner` on the batch returns exactly what it returns with
that row removed — identical tables, or the identical error — so every
other row is processed as if the malformed row were absent.  The run
completes without raising whenever the remaining rows emit at least one
face; when the whole batch is skipped the columnless empty frame makes
`normalise_subtypes` raise `KeyError: Subtypes_List`. -/
theorem c6_malformed_split_skipped (pre post : List RawRow) (r : RawRow)
    (hdd : containsDD (pyTrim r.TypeLine).toList = true)
    (hbad : ¬((splitDD r.Name.toList).length = 2 ∧
              (splitDD (pyTrim r.TypeLine).toList).length = 2)) :
    run_cleaner (pre ++ r :: post) = run_cleaner (pre ++ post) ∧
    (facesOf (pre ++ post) ≠ [] →
      ∃ t, run_cleaner (pre ++ r :: post) = Except.ok t) := by
  have hexp : expandRow (prepRow r) = [] := by
    dsimp only [expandRow, prepRow]
    simp only [hdd, if_true, List.length_map]
    rw [if_neg (fun hc => hbad ⟨hc.1.trans hc.2, hc.2⟩)]
  have hfaces : facesOf (pre ++ r :: post) = facesOf (pre ++ post) := by
    unfold facesOf
    simp [hexp]
  have heq : run_cleaner (pre ++ r :: post) = run_cleaner (pre ++ post) := by
    unfold run_cleaner
    rw [hfaces]
  refine ⟨heq, fun hfne => ?_⟩
  have hne : ¬((assignCardIds (facesOf (pre ++ post))).isEmpty = true) := by
    intro he
    rw [List.isEmpty_iff] at he
    apply hfne
    have hlen := congrArg List.length he
    simp only [assignCardIds, List.length_map, List.enum_length,
      List.length_nil] at hlen
    exact List.eq_nil_of_length_eq_zero hlen
  refine ⟨cleanTables (assignCardIds (facesOf (pre ++ post))), ?_⟩
  rw [heq]
  unfold run_cleaner buildTables
  dsimp only
  rw [if_neg hne]

/-- C6 witness: the amended theorem applied to a concrete malformed row
(`A // B // C` splits into three type parts) between two good rows, whose
faces are non-empty, so the run also completes without the error. -/
theorem c6_malformed_split_skipped_witness :
    run_cleaner
        [{ Name := "G1", Edition := "E", Price := "0",
           TypeLine := "Instant", ManaCost := "sym_u" },
         { Name := "Bad // Row", Edition := "E", Price := "0",
           TypeLine := "A // B // C", ManaCost := "" },
         { Name := "G2", Edition := "E", Price := "0",
           TypeLine := "Sorcery", ManaCost := "sym_r" }] =
      run_cleaner
        [{ Name := "G1", Edition := "E", Price := "0",
           TypeLine := "Instant", ManaCost := "sym_u" },
         { Name := "G2", Edition := "E", Price := "0",
           TypeLine := "Sorcery", ManaCost := "sym_r" }] ∧
    ∃ t, run_cleaner
        [{ Name := "G1", Edition := "E", Price := "0",
           TypeLine := "Instant", ManaCost := "sym_u" },
         { Name := "Bad // Row", Edition := "E", Price := "0",
           TypeLine := "A // B // C", ManaCost := "" },
         { Name := "G2", Edition := "E", Price := "0",
           TypeLine := "Sorcery", ManaCost := "sym_r" }] = Except.ok t :=
  ⟨(c6_malformed_split_skipped
      [{ Name := "G1", Edition := "E", Price := "0",
         TypeLine := "Instant", ManaCost := "sym_u" }]
      [{ Name := "G2", Edition := "E", Price := "0",
         TypeLine := "Sorcery", ManaCost := "sym_r" }]
      { Name := "Bad // Row", Edition := "E", Price := "0",
        TypeLine := "A // B // C", ManaCost := "" }
      (by decide) (by decide)).1,
   (c6_malformed_split_skipped
      [{ Name := "G1", Edition := "E", Price := "0",
         TypeLine := "Instant", ManaCost := "sym_u" }]
      [{ Name := "G2", Edition := "E", Price := "0",
         TypeLine := "Sorcery", ManaCost := "sym_r" }]
      { Name := "Bad // Row", Edition := "E", Price := "0",
        TypeLine := "A // B // C", ManaCost := "" }
      (by decide) (by decide)).2 (by decide)⟩

/-! ## C3: surrogate keys are dense, contiguous, and in order -/

theorem enum_ids (l : List α) :
    l.enum.map (fun p => p.1 + 1) = List.range' 1 l.length := by
  have h1 : l.enum.map (fun p => p.1 + 1)
      = (l.enum.map Prod.fst).map (fun i => i + 1) := by
    rw [List.map_map]; rfl
  rw [h1, List.enum_map_fst, List.range'_eq_map_range]
  exact List.map_congr_left (fun i _ => Nat.add_comm i 1)

theorem cleanTables_card_ids (faces : List CardFace) :
    (cleanTables (assignCardIds faces)).1.map (fun c => c.Card_ID) =
      List.range' 1 faces.length := by
  show (((faces.enum.map (fun p => toCardRow p.1 p.2)).map
      dropSubtypesColumn).map _).map _ = _
  rw [List.map_map, List.map_map, List.map_map]
  exact enum_ids faces

theorem cleanTables_edition_ids (faces : List CardFace) :
    (cleanTables (assignCardIds faces)).2.1.map (fun e => e.Edition_ID) =
      List.range' 1 (cleanTables (assignCardIds faces)).2.1.length := by
  show ((dropDuplicates _).enum.map
        (fun p => EditionRow.mk p.2 (p.1 + 1))).map _ =
      List.range' 1 ((dropDuplicates _).enum.map
        (fun p => EditionRow.mk p.2 (p.1 + 1))).length
  rw [List.map_map, List.length_map, List.enum_length]
  exact enum_ids _

theorem cleanTables_subtype_ids (faces : List CardFace) :
    (cleanTables (assignCardIds faces)).2.2.1.map (fun s => s.Subtype_ID) =
      List.range' 1 (cleanTables (assignCardIds faces)).2.2.1.length := by
  show ((dropDuplicates _).enum.map
        (fun p => SubtypeRow.mk p.2 (p.1 + 1))).map _ =
      List.range' 1 ((dropDuplicates _).enum.map
        (fun p => SubtypeRow.mk p.2 (p.1 + 1))).length
  rw [List.map_map, List.length_map, List.enum_length]
  exact enum_ids _

theorem cleanTables_card_length (faces : List CardFace) :
    (cleanTables (assignCardIds faces)).1.length = faces.length := by
  show (((faces.enum.map (fun p => toCardRow p.1 p.2)).map
      dropSubtypesColumn).map _).length = _
  rw [List.length_map, List.length_map, List.length_map, List.enum_length]

/-- C3: in every output batch `run_cleaner` completes on, the `Card_ID`
column is exactly the contiguous range `1..N` in accumulation order, the
lookup tables' key columns `Edition_ID` and `Subtype_ID` are exactly
`1..M` for their table lengths (assigned in first-occurrence order of
their deduplicated names), and none of the three key columns contains a
duplicate. -/
theorem c3_surrogate_keys_dense (df : List RawRow)
    (t : List CardDetails × List EditionRow × List SubtypeRow × List LinkRow)
    (h : run_cleaner df = Except.ok t) :
    (t.1.map (fun c => c.Card_ID) = List.range' 1 t.1.length) ∧
    (t.2.1.map (fun e => e.Edition_ID) = List.range' 1 t.2.1.length) ∧
    (t.2.2.1.map (fun s => s.Subtype_ID) = List.range' 1 t.2.2.1.length) ∧
    (t.1.map (fun c => c.Card_ID)).Nodup ∧
    (t.2.1.map (fun e => e.Edition_ID)).Nodup ∧
    (t.2.2.1.map (fun s => s.Subtype_ID)).Nodup := by
  have ht := run_cleaner_ok_eq h
  subst ht
  have h1 : (cleanTables (assignCardIds (facesOf df))).1.map
      (fun c => c.Card_ID) =
      List.range' 1 (cleanTables (assignCardIds (facesOf df))).1.length := by
    rw [cleanTables_card_ids, cleanTables_card_length]
  refine ⟨h1, cleanTables_edition_ids _, cleanTables_subtype_ids _,
    ?_, ?_, ?_⟩
  · rw [h1]; apply List.nodup_range'; omega
  · rw [cleanTables_edition_ids]; apply List.nodup_range'; omega
  · rw [cleanTables_subtype_ids]; apply List.nodup_range'; omega

/-- C3 witness: the dense-`Card_ID` conjunct of the theorem applied at a
concrete one-row batch, with the `Except.ok` hypothesis discharged by
evaluation. -/
theorem c3_surrogate_keys_dense_witness :
    (cleanTables (assignCardIds (facesOf
        [{ Name := "W1", Edition := "E", Price := "0",
           TypeLine := "Creature - Elf Warrior",
           ManaCost := "sym_g" }]))).1.map (fun c => c.Card_ID) =
      List.range' 1 (cleanTables (assignCardIds (facesOf
        [{ Name := "W1", Edition := "E", Price := "0",
           TypeLine := "Creature - Elf Warrior",
           ManaCost := "sym_g" }]))).1.length :=
  (c3_surrogate_keys_dense
    [{ Name := "W1", Edition := "E", Price := "0",
       TypeLine := "Creature - Elf Warrior", ManaCost := "sym_g" }]
    _ rfl).1

/-! ## C4: referential integrity of the link table and Edition_ID -/

theorem mem_dropDupAux [DecidableEq α] {x : α} :
    ∀ {l seen : List α}, x ∈ dropDupAux l seen ↔ (x ∈ l ∧ x ∉ seen) := by
  intro l
  induction l with
  | nil => intro seen; simp [dropDupAux]
  | cons y ys ih =>
    intro seen
    by_cases hy : y ∈ seen
    · rw [show dropDupAux (y :: ys) seen = dropDupAux ys seen from if_pos hy,
        ih]
      constructor
      · rintro ⟨hx, hs⟩; exact ⟨List.mem_cons_of_mem y hx, hs⟩
      · rintro ⟨hor, hs⟩
        rcases List.mem_cons.mp hor with rfl | hx
        · exact absurd hy hs
        · exact ⟨hx, hs⟩
    · rw [show dropDupAux (y :: ys) seen = y :: dropDupAux ys (y :: seen)
        from if_neg hy]
      constructor
      · intro hmem
        rcases List.mem_cons.mp hmem with rfl | hx
        · exact ⟨List.mem_cons_self x ys, hy⟩
        · obtain ⟨h1, h2⟩ := ih.mp hx
          exact ⟨List.mem_cons_of_mem y h1,
            fun hc => h2 (List.mem_cons_of_mem y hc)⟩
      · rintro ⟨hor, hs⟩
        rcases List.mem_cons.mp hor with rfl | hx
        · exact List.mem_cons_self x _
        · by_cases hxy : x = y
          · exact hxy ▸ List.mem_cons_self y _
          · refine List.mem_cons_of_mem y (ih.mpr ⟨hx, ?_⟩)
            intro hc
            rcases List.mem_cons.mp hc with h | h
            · exact hxy h
            · exact hs h

theorem mem_dropDuplicates [DecidableEq α] {x : α} {l : List α} :
    x ∈ dropDuplicates l ↔ x ∈ l := by
  unfold dropDuplicates
  rw [mem_dropDupAux]
  simp

theorem firstIndex_some_of_mem [DecidableEq α] {a : α} {l : List α}
    (h : a ∈ l) : ∃ i, firstIndex a l = some i ∧ i < l.length := by
  induction l with
  | nil => cases h
  | cons x xs ih =>
    by_cases hx : x = a
    · exact ⟨0, by simp [firstIndex, hx], by simp⟩
    · have ha : a ∈ xs := by
        rcases List.mem_cons.mp h with rfl | h2
        · exact absurd rfl hx
        · exact h2
      obtain ⟨i, hi, hlt⟩ := ih ha
      refine ⟨i + 1, by simp [firstIndex, hx, hi], ?_⟩
      simp only [List.length_cons]
      omega

theorem subtype_lookup_row {names : List String} {i : Nat}
    (h : i < names.length) :
    ∃ srow ∈ names.enum.map (fun p => SubtypeRow.mk p.2 (p.1 + 1)),
      srow.Subtype_ID = i + 1 := by
  have hm : i + 1 ∈ (names.enum.map
      (fun p => SubtypeRow.mk p.2 (p.1 + 1))).map (fun s => s.Subtype_ID) := by
    rw [List.map_map]
    show i + 1 ∈ names.enum.map (fun p => p.1 + 1)
    rw [enum_ids]
    exact List.mem_range'_1.mpr ⟨by omega, by omega⟩
  rcases List.mem_map.mp hm with ⟨srow, hs, hid⟩
  exact ⟨srow, hs, hid⟩

theorem edition_lookup_row {names : List String} {i : Nat}
    (h : i < names.length) :
    ∃ erow ∈ names.enum.map (fun p => EditionRow.mk p.2 (p.1 + 1)),
      erow.Edition_ID = i + 1 := by
  have hm : i + 1 ∈ (names.enum.map
      (fun p => EditionRow.mk p.2 (p.1 + 1))).map (fun e => e.Edition_ID) := by
    rw [List.map_map]
    show i + 1 ∈ names.enum.map (fun p => p.1 + 1)
    rw [enum_ids]
    exact List.mem_range'_1.mpr ⟨by omega, by omega⟩
  rcases List.mem_map.mp hm with ⟨erow, hs, hid⟩
  exact ⟨erow, hs, hid⟩

theorem normalise_subtypes_link_sound (df : List CardRow) :
    ∀ lk ∈ (normalise_subtypes df).2.2,
      (∃ r ∈ df, r.Card_ID = lk.Card_ID) ∧
      ∃ i, lk.Subtype_ID = some i ∧
        ∃ srow ∈ (normalise_subtypes df).2.1, srow.Subtype_ID = i := by
  intro lk hlk
  simp only [normalise_subtypes] at hlk ⊢
  have hlk2 := mem_dropDuplicates.mp hlk
  rcases List.mem_map.mp hlk2 with ⟨⟨cid, nm⟩, hpair, rfl⟩
  rcases List.mem_flatten.mp hpair with ⟨sub, hsub, hmem⟩
  rcases List.mem_map.mp hsub with ⟨r, hr, rfl⟩
  rcases List.mem_map.mp hmem with ⟨nm', hnm', heq⟩
  obtain ⟨hcid, hnm⟩ : r.Card_ID = cid ∧ nm' = nm := by
    constructor
    · exact congrArg Prod.fst heq
    · exact congrArg Prod.snd heq
  subst hnm
  constructor
  · exact ⟨r, hr, hcid⟩
  · have hser : nm' ∈ (df.map
        (fun r => faceSubtypeNames r.Subtypes_List)).flatten :=
      List.mem_flatten.mpr
        ⟨faceSubtypeNames r.Subtypes_List,
          List.mem_map_of_mem _ hr, hnm'⟩
    have hlook := mem_dropDuplicates.mpr hser
    obtain ⟨i, hfi, hlt⟩ := firstIndex_some_of_mem hlook
    refine ⟨i + 1, by simp [hfi], subtype_lookup_row hlt⟩

theorem normalise_edition_fk_sound (l : List CardNoSubtypes) :
    ∀ c ∈ (normalise_edition l).1,
      ∃ i, c.Edition_ID = some i ∧
        ∃ erow ∈ (normalise_edition l).2, erow.Edition_ID = i := by
  intro c hc
  simp only [normalise_edition] at hc ⊢
  rcases List.mem_map.mp hc with ⟨r, hr, rfl⟩
  have hlook : r.Edition ∈ dropDuplicates (l.map (fun r => r.Edition)) :=
    mem_dropDuplicates.mpr (List.mem_map_of_mem _ hr)
  obtain ⟨i, hfi, hlt⟩ := firstIndex_some_of_mem hlook
  exact ⟨i + 1, by simp [hfi], edition_lookup_row hlt⟩

/-- C4: in every output batch `run_cleaner` completes on, every row of the
card-subtype link table carries a `Card_ID` that exists in the
card-details table and a non-null `Subtype_ID` that exists in the subtype
lookup table, and every card-details row carries exactly one non-null
`Edition_ID` that exists in the edition lookup table. -/
theorem c4_referential_integrity (df : List RawRow)
    (t : List CardDetails × List EditionRow × List SubtypeRow × List LinkRow)
    (h : run_cleaner df = Except.ok t) :
    (∀ lk ∈ t.2.2.2,
      (∃ c ∈ t.1, c.Card_ID = lk.Card_ID) ∧
      ∃ i, lk.Subtype_ID = some i ∧
        ∃ srow ∈ t.2.2.1, srow.Subtype_ID = i) ∧
    (∀ c ∈ t.1,
      ∃ i, c.Edition_ID = some i ∧
        ∃ erow ∈ t.2.1, erow.Edition_ID = i) := by
  have ht := run_cleaner_ok_eq h
  subst ht
  constructor
  · intro lk hlk
    obtain ⟨⟨r, hr, hid⟩, hsub⟩ :=
      normalise_subtypes_link_sound (assignCardIds (facesOf df)) lk hlk
    refine ⟨⟨_, List.mem_map_of_mem _ (List.mem_map_of_mem _ hr), hid⟩, hsub⟩
  · intro c hc
    exact normalise_edition_fk_sound _ c hc

/-- C4 witness: the theorem applied at a concrete one-row batch whose
single link row is `(1, some 1)`, with the `Except.ok` hypothesis
discharged by evaluation. -/
theorem c4_referential_integrity_witness :
    (∃ c ∈ (cleanTables (assignCardIds (facesOf
          [{ Name := "A", Edition := "E", Price := "0",
             TypeLine := "Creature - Elf", ManaCost := "sym_g" }]))).1,
        c.Card_ID = (LinkRow.mk 1 (some 1)).Card_ID) ∧
      ∃ i, (LinkRow.mk 1 (some 1)).Subtype_ID = some i ∧
        ∃ srow ∈ (cleanTables (assignCardIds (facesOf
            [{ Name := "A", Edition := "E", Price := "0",
               TypeLine := "Creature - Elf", ManaCost := "sym_g" }]))).2.2.1,
          srow.Subtype_ID = i :=
  (c4_referential_integrity
    [{ Name := "A", Edition := "E", Price := "0",
       TypeLine := "Creature - Elf", ManaCost := "sym_g" }]
    _ rfl).1 (LinkRow.mk 1 (some 1)) (by decide)

/-! ## C9: the Edition prefix clean-up -/

/-- `pat` occurs somewhere in `l` (as a contiguous substring). -/
def occursSub (pat l : List Char) : Bool :=
  l.tails.any (fun t => pat.isPrefixOf t)

theorem removeAllAux_no_occ (pat : List Char) :
    ∀ (fuel : Nat) (l : List Char), l.length ≤ fuel →
      occursSub pat l = false → removeAllAux pat fuel l = l := by
  intro fuel
  induction fuel with
  | zero =>
    intro l hl _
    have hnil : l = [] := List.eq_nil_of_length_eq_zero (Nat.le_zero.mp hl)
    subst hnil; rfl
  | succ n ih =>
    intro l hl hocc
    cases l with
    | nil => rfl
    | cons c rest =>
      have hparts : pat.isPrefixOf (c :: rest) = false ∧
          occursSub pat rest = false := by
        unfold occursSub at hocc
        rw [List.tails_cons, List.any_cons] at hocc
        exact Bool.or_eq_false_iff.mp hocc
      show (if pat.isPrefixOf (c :: rest) then
          removeAllAux pat n (List.drop (pat.length - 1) rest)
        else c :: removeAllAux pat n rest) = c :: rest
      rw [hparts.1]
      simp only [Bool.false_eq_true, if_false]
      congr 1
      refine ih rest ?_ hparts.2
      simp only [List.length_cons] at hl
      omega

theorem removeAll_append_of_begin (p : Char) (ps rest : List Char)
    (hocc : occursSub (p :: ps) rest = false) :
    removeAll (p :: ps) ((p :: ps) ++ rest) = rest := by
  unfold removeAll
  have hlen : ((p :: ps) ++ rest).length = (ps ++ rest).length + 1 := by simp
  rw [hlen]
  show (if (p :: ps).isPrefixOf (p :: (ps ++ rest)) then
      removeAllAux (p :: ps) (ps ++ rest).length
        (List.drop ((p :: ps).length - 1) (ps ++ rest))
    else p :: removeAllAux (p :: ps) (ps ++ rest).length (ps ++ rest)) = rest
  have hpre : (p :: ps).isPrefixOf (p :: (ps ++ rest)) = true :=
    List.isPrefixOf_iff_prefix.mpr (List.prefix_append (p :: ps) rest)
  rw [hpre]
  simp only [if_true, List.length_cons, Nat.add_sub_cancel, List.drop_left]
  refine removeAllAux_no_occ _ _ _ ?_ hocc
  rw [List.length_append]
  omega

/-- Claim C9 reading of step 1: strip the fixed prefix from the beginning
of the Edition value when present, leave the value otherwise unchanged,
then trim surrounding whitespace. -/
def claimCleanEdition (e : String) : String :=
  let l := e.toList
  let l2 :=
    if PREFIX_TO_REMOVE.isPrefixOf l then l.drop PREFIX_TO_REMOVE.length
    else l
  String.mk (pyTrimList l2)

/-- C9 counterexample: the code replaces the prefix substring anywhere in
the value, not only at the beginning — an Edition value containing the
prefix in the middle is altered there, contradicting the claim. -/
theorem c9_counterexample :
    cleanEdition "Foil Cheapest Recent Printing - Alpha" = "Foil Alpha" ∧
    claimCleanEdition "Foil Cheapest Recent Printing - Alpha" =
      "Foil Cheapest Recent Printing - Alpha" ∧
    cleanEdition "Foil Cheapest Recent Printing - Alpha" ≠
      claimCleanEdition "Foil Cheapest Recent Printing - Alpha" := by decide

/-- C9 (amended): step 1 removes every occurrence of the fixed prefix
substring and trims; whenever the prefix occurs at most at the very
beginning of the value (no occurrence survives past the initial strip),
this coincides with the claim's begin-strip-then-trim description. -/
theorem c9_edition_prefix_cleaning (e : String)
    (hocc : occursSub PREFIX_TO_REMOVE
      (if PREFIX_TO_REMOVE.isPrefixOf e.toList then
        e.toList.drop PREFIX_TO_REMOVE.length
      else e.toList) = false) :
    cleanEdition e = claimCleanEdition e := by
  by_cases hp : PREFIX_TO_REMOVE.isPrefixOf e.toList = true
  · rw [if_pos hp] at hocc
    have hpre : PREFIX_TO_REMOVE <+: e.toList :=
      List.isPrefixOf_iff_prefix.mp hp
    have happ : PREFIX_TO_REMOVE ++ e.toList.drop PREFIX_TO_REMOVE.length =
        e.toList := List.prefix_iff_eq_append.mp hpre
    have h2 : removeAll PREFIX_TO_REMOVE e.toList =
        e.toList.drop PREFIX_TO_REMOVE.length := by
      conv_lhs => rw [← happ]
      obtain ⟨p, ps, hPP⟩ : ∃ p ps, PREFIX_TO_REMOVE = p :: ps :=
        ⟨'C', "heapest Recent Printing - ".toList, rfl⟩
      rw [hPP] at hocc ⊢
      exact removeAll_append_of_begin p ps _ hocc
    unfold cleanEdition claimCleanEdition
    dsimp only
    rw [if_pos hp, h2]
  · rw [if_neg hp] at hocc
    unfold cleanEdition claimCleanEdition
    dsimp only
    rw [if_neg hp]
    rw [show removeAll PREFIX_TO_REMOVE e.toList = e.toList from
      removeAllAux_no_occ _ _ _ (Nat.le_refl _) hocc]

/-- C9 witness: the amended theorem applied at a prefixed concrete value. -/
theorem c9_edition_prefix_cleaning_witness :
    cleanEdition "Cheapest Recent Printing - Unfinity" =
      claimCleanEdition "Cheapest Recent Printing - Unfinity" :=
  c9_edition_prefix_cleaning "Cheapest Recent Printing - Unfinity" (by decide)

/-! ## C10: run_cleaner does not mutate its argument -/

/-- The two pandas objects alive inside `run_cleaner`: the caller's
DataFrame and the working copy. -/
structure CleanerMem where
  caller : List RawRow
  df : List RawRow

/-- State-passing reading of `run_cleaner`'s mutation behaviour:
`df = df.copy()` makes `df` an independent copy of the argument, and every
later column assignment and `inplace=True` drop targets that copy (the
`df` field), never the caller's object.  Returns the outputs together with
the caller's DataFrame as it stands after the call. -/
def run_cleaner_mem (input : List RawRow) :
    Except String
        (List CardDetails × List EditionRow × List SubtypeRow × List LinkRow) ×
      List RawRow :=
  let s0 : CleanerMem := { caller := input, df := input }
  let s1 : CleanerMem := { s0 with df := s0.df.map prepRow }
  let final_rows := (s1.df.map expandRow).flatten
  (buildTables final_rows, s1.caller)

/-- C10: after `run_cleaner` returns, the caller's DataFrame is exactly
what it was before the call — all cleaning, column drops and face
expansion happen on the internal copy — and the outputs are those of the
pure pipeline. -/
theorem c10_run_cleaner_no_mutation (input : List RawRow) :
    (run_cleaner_mem input).2 = input ∧
    (run_cleaner_mem input).1 = run_cleaner input :=
  ⟨rfl, rfl⟩

end MtgCleaner
